import Mathlib

/-!
Shallow embedding of `src/mcp_server.py` (Paperless-ngx / n8n MCP bridge server).

Modelling conventions:
* Python strings are `List Char` (`Str`); `str.lower()` is `List.map Char.toLower`
  (the relevant inputs are ASCII); Python substring containment `a in b` is
  `strContains a b`, decided from `List.IsInfix`.
* JSON values are the inductive `JsonVal`; Python dicts are association lists
  with Python-dict semantics (`dictInsert` replaces in place, `dictGet?` looks up).
* The HTTP transport (`requests`) is a `Http` record of response functions; a
  call either fails in transport (`HttpResult.transport`, a `RequestException`
  message) or yields a status and parsed JSON body (`HttpResult.response`).
  `raiseForStatus` mirrors `requests.Response.raise_for_status`, which raises
  exactly for status codes in `[400, 600)`.
* Every client/handler function returns its value together with the list of
  HTTP requests it issued (`Effect`), so that claims about which write requests
  are sent can be stated; `fastapi.HTTPException` is the structure `HErr`.
* Handlers return their Python result dict as a `JsonVal.obj` with fields in
  the order of the Python dict literal.
-/

abbrev Str := List Char

def cs (s : String) : Str := s.toList

/-- Python `str.lower()` on the ASCII range (`Char.toLower`). -/
def lowerStr (s : Str) : Str := s.map Char.toLower

/-- Python substring containment `needle in hay`. -/
def strContains (needle hay : Str) : Bool := decide (List.IsInfix needle hay)

/-- Decimal digits of a natural number, as used when formatting ids and
status codes into URLs and messages. -/
def natChars (n : Nat) : Str := Nat.toDigits 10 n

/-- Python `str(n)` for an integer. -/
def intChars (n : Int) : Str :=
  if n < 0 then '-' :: natChars n.natAbs else natChars n.natAbs

/-- Python `s.rstrip('/')`. -/
def rstripSlash (s : Str) : Str := (s.reverse.dropWhile (fun c => c == '/')).reverse

/-- JSON values, the dynamic data the server shuttles between the two APIs. -/
inductive JsonVal where
  | null
  | bool (b : Bool)
  | num (n : Int)
  | str (s : Str)
  | arr (xs : List JsonVal)
  | obj (fields : List (Str × JsonVal))

/-- First-match lookup in an association list (Python `d[k]` / `d.get(k)`:
Python dict keys are unique, so first match is the match). -/
def dictGet? {α : Type} (d : List (Str × α)) (k : Str) : Option α :=
  match d with
  | [] => none
  | (k', v) :: rest => if k' = k then some v else dictGet? rest k

/-- Python `d[k] = v`: replace the value of an existing key in place,
otherwise append the new binding. -/
def dictInsert {α : Type} (d : List (Str × α)) (k : Str) (v : α) : List (Str × α) :=
  match d with
  | [] => [(k, v)]
  | (k', v') :: rest => if k' = k then (k, v) :: rest else (k', v') :: dictInsert rest k v

/-- Python `{**a, **b}`: start from `a` and insert every binding of `b`. -/
def dictMerge {α : Type} (a b : List (Str × α)) : List (Str × α) :=
  b.foldl (fun acc p => dictInsert acc p.1 p.2) a

/-- Fields of a JSON object (`{**current_doc, ...}` needs the dict view). -/
def jFields : JsonVal → List (Str × JsonVal)
  | .obj fields => fields
  | _ => []

/-- Elements of a JSON array. -/
def jArr : JsonVal → List JsonVal
  | .arr xs => xs
  | _ => []

/-- The integers of a JSON array (tag-id lists are arrays of integers). -/
def jIntList (v : JsonVal) : List Int :=
  (jArr v).filterMap (fun x => match x with | .num n => some n | _ => none)

/-- Python `document.get(k, default)` on a JSON object. -/
def docGetD (v : JsonVal) (k : Str) (default : JsonVal) : JsonVal :=
  match dictGet? (jFields v) k with
  | some w => w
  | none => default

/-- Python `document.get(k)` read as an optional integer (used for the
`correspondent` and `document_type` fields, which are null or an id). -/
def docGetInt? (v : JsonVal) (k : Str) : Option Int :=
  match dictGet? (jFields v) k with
  | some (.num n) => some n
  | _ => none

def keyResults : Str := cs ("results")
def keyTags : Str := cs ("tags")
def keyTitle : Str := cs ("title")
def keyContent : Str := cs ("content")
def keyId : Str := cs ("id")
def keyName : Str := cs ("name")
def keyCorrespondent : Str := cs ("correspondent")
def keyDocumentType : Str := cs ("document_type")
def keySuccess : Str := cs ("success")
def keyError : Str := cs ("error")
def keyDocumentId : Str := cs ("document_id")
def keyDocuments : Str := cs ("documents")
def keyDocument : Str := cs ("document")
def keyUpdatedTags : Str := cs ("updated_tags")
def keyMessage : Str := cs ("message")
def keyDocumentTitle : Str := cs ("document_title")
def keySuggestedTags : Str := cs ("suggested_tags")
def keySuggestedTagIds : Str := cs ("suggested_tag_ids")
def keyTagsUpdated : Str := cs ("tags_updated")
def keyReferenceDocumentId : Str := cs ("reference_document_id")
def keySimilarDocuments : Str := cs ("similar_documents")
def keySimilarityCriteria : Str := cs ("similarity_criteria")
def keyCorrespondentId : Str := cs ("correspondent_id")
def keyPageSize : Str := cs ("page_size")
def keyQuery : Str := cs ("query")
def keyTagsId : Str := cs ("tags__id")
def keyCorrespondentIdFilter : Str := cs ("correspondent__id")
def keyDocumentTypeIdFilter : Str := cs ("document_type__id")
def keyCreatedGte : Str := cs ("created__gte")
def keyCreatedLte : Str := cs ("created__lte")

/-- `document.get("title", "")`. -/
def docTitle (v : JsonVal) : Str :=
  match docGetD v keyTitle (.str []) with
  | .str s => s
  | _ => []

/-- `document.get("content", "")`. -/
def docContent (v : JsonVal) : Str :=
  match docGetD v keyContent (.str []) with
  | .str s => s
  | _ => []

/-- `document.get("tags", [])`, read as the list of integer tag ids. -/
def docTags (v : JsonVal) : List Int := jIntList (docGetD v keyTags (.arr []))

/-- `doc["id"]` (documents served by the upstream always carry an integer id). -/
def docId (v : JsonVal) : Int :=
  match dictGet? (jFields v) keyId with
  | some (.num n) => n
  | _ => 0

def docCorrespondent (v : JsonVal) : Option Int := docGetInt? v keyCorrespondent

def docDocumentType (v : JsonVal) : Option Int := docGetInt? v keyDocumentType

/-- `tag["name"]` of a tag object. -/
def tagName (v : JsonVal) : Str :=
  match dictGet? (jFields v) keyName with
  | some (.str s) => s
  | _ => []

/-- `tag["id"]` of a tag object. -/
def tagId (v : JsonVal) : Int :=
  match dictGet? (jFields v) keyId with
  | some (.num n) => n
  | _ => 0

/-- The statically configured base URLs and tokens (environment variables
`PAPERLESS_API_URL`, `PAPERLESS_API_TOKEN`, `N8N_API_URL`, `N8N_API_TOKEN`). -/
structure Config where
  paperlessUrl : Str
  paperlessToken : Str
  n8nUrl : Str
  n8nToken : Str

/-- An outbound HTTP request: URL, headers, query parameters. -/
structure Request where
  url : Str
  headers : List (Str × Str)
  params : List (Str × JsonVal)

/-- `get_paperless_headers()`. -/
def paperlessHeaders (cfg : Config) : List (Str × Str) :=
  [(cs ("Authorization"), cs ("Token ") ++ cfg.paperlessToken),
   (cs ("Content-Type"), cs ("application/json"))]

/-- Outcome of one `requests` call: a transport failure (`RequestException`
message) or a response with status code and parsed JSON body. -/
inductive HttpResult where
  | transport (msg : Str)
  | response (status : Nat) (body : JsonVal)

/-- The HTTP transport: what each GET/PUT/POST request would return.
A function, hence deterministic within one invocation, matching the spec's
assumption of no intervening upstream state change during a handler run. -/
structure Http where
  get : Request → HttpResult
  put : Request → JsonVal → HttpResult
  post : Request → JsonVal → HttpResult

/-- One issued HTTP request, recorded in order. -/
inductive Effect where
  | get (r : Request)
  | put (r : Request) (body : JsonVal)
  | post (r : Request) (body : JsonVal)

def Effect.isPut : Effect → Bool
  | .put _ _ => true
  | _ => false

/-- `fastapi.HTTPException(status_code, detail)`. -/
structure HErr where
  status_code : Nat
  detail : Str

/-- Python `str(e)` of an `HTTPException` (`"{status_code}: {detail}"`). -/
def exnStr (e : HErr) : Str := natChars e.status_code ++ cs (": ") ++ e.detail

/-- The message of the `HTTPError` that `raise_for_status` raises. -/
def raiseForStatusMsg (r : Request) (st : Nat) : Str :=
  natChars st ++
    (if st < 500 then cs (" Client Error for url: ") else cs (" Server Error for url: ")) ++
    r.url

/-- `requests.Response.raise_for_status`: raises exactly for `400 <= status < 600`. -/
def raiseForStatus (r : Request) (st : Nat) : Option Str :=
  if 400 ≤ st ∧ st < 600 then some (raiseForStatusMsg r st) else none

/-- An optional string query parameter, added only when truthy (non-empty). -/
def optStrParam (k : Str) (v : Option Str) : List (Str × JsonVal) :=
  match v with
  | some s => if s.isEmpty then [] else [(k, .str s)]
  | none => []

/-- An optional integer query parameter, added only when truthy (non-zero). -/
def optIntParam (k : Str) (v : Option Int) : List (Str × JsonVal) :=
  match v with
  | some n => if n = 0 then [] else [(k, .num n)]
  | none => []

/-- The request built by `fetch_paperless_documents`: URL
`{base}/documents/` and the `params` dict in the order the code fills it. -/
def documentsRequest (cfg : Config) (query : Option Str)
    (tag_id correspondent_id document_type_id : Option Int)
    (created_after created_before : Option Str) (limit : Nat) : Request :=
  { url := rstripSlash cfg.paperlessUrl ++ cs ("/documents/")
    headers := paperlessHeaders cfg
    params := [(keyPageSize, .num (limit : Int))]
      ++ optStrParam keyQuery query
      ++ optIntParam keyTagsId tag_id
      ++ optIntParam keyCorrespondentIdFilter correspondent_id
      ++ optIntParam keyDocumentTypeIdFilter document_type_id
      ++ optStrParam keyCreatedGte created_after
      ++ optStrParam keyCreatedLte created_before }

/-- The request built by `fetch_paperless_document` and
`update_paperless_document`: URL `{base}/documents/{document_id}/`. -/
def documentRequest (cfg : Config) (document_id : Int) : Request :=
  { url := rstripSlash cfg.paperlessUrl ++ cs ("/documents/") ++ intChars document_id ++ cs ("/")
    headers := paperlessHeaders cfg
    params := [] }

/-- The request built by `fetch_paperless_tags`: URL `{base}/tags/`. -/
def tagsRequest (cfg : Config) : Request :=
  { url := rstripSlash cfg.paperlessUrl ++ cs ("/tags/")
    headers := paperlessHeaders cfg
    params := [] }

def errFetchDocsMsg : Str := cs ("Error fetching documents: ")
def errFetchDocMsg : Str := cs ("Error fetching document: ")
def errFetchTagsMsg : Str := cs ("Error fetching tags: ")
def errUpdateDocMsg : Str := cs ("Error updating document: ")

/-- Result of `fetch_paperless_documents`: on a `RequestException` (transport
failure or `raise_for_status`) an `HTTPException(500, "Error fetching
documents: " + str(e))`, otherwise `response.json().get("results", [])`. -/
def fetchDocumentsResult (cfg : Config) (h : Http) (query : Option Str)
    (tag_id correspondent_id document_type_id : Option Int)
    (created_after created_before : Option Str) (limit : Nat) :
    Except HErr (List JsonVal) :=
  let r := documentsRequest cfg query tag_id correspondent_id document_type_id
    created_after created_before limit
  match h.get r with
  | .transport m => .error ⟨500, errFetchDocsMsg ++ m⟩
  | .response st body =>
    match raiseForStatus r st with
    | some m => .error ⟨500, errFetchDocsMsg ++ m⟩
    | none => .ok (jArr (docGetD body keyResults (.arr [])))

/-- `fetch_paperless_documents`: the result together with the single GET it issues. -/
def fetch_paperless_documents (cfg : Config) (h : Http) (query : Option Str)
    (tag_id correspondent_id document_type_id : Option Int)
    (created_after created_before : Option Str) (limit : Nat) :
    Except HErr (List JsonVal) × List Effect :=
  (fetchDocumentsResult cfg h query tag_id correspondent_id document_type_id
     created_after created_before limit,
   [Effect.get (documentsRequest cfg query tag_id correspondent_id document_type_id
     created_after created_before limit)])

/-- Result of `fetch_paperless_document`: the parsed body, or
`HTTPException(500, "Error fetching document: " + str(e))`. -/
def fetchDocResult (cfg : Config) (h : Http) (document_id : Int) :
    Except HErr JsonVal :=
  let r := documentRequest cfg document_id
  match h.get r with
  | .transport m => .error ⟨500, errFetchDocMsg ++ m⟩
  | .response st body =>
    match raiseForStatus r st with
    | some m => .error ⟨500, errFetchDocMsg ++ m⟩
    | none => .ok body

/-- `fetch_paperless_document`: the result together with the single GET it issues. -/
def fetch_paperless_document (cfg : Config) (h : Http) (document_id : Int) :
    Except HErr JsonVal × List Effect :=
  (fetchDocResult cfg h document_id, [Effect.get (documentRequest cfg document_id)])

/-- Result of `fetch_paperless_tags`: `response.json().get("results", [])`, or
`HTTPException(500, "Error fetching tags: " + str(e))`. -/
def fetchTagsResult (cfg : Config) (h : Http) : Except HErr (List JsonVal) :=
  let r := tagsRequest cfg
  match h.get r with
  | .transport m => .error ⟨500, errFetchTagsMsg ++ m⟩
  | .response st body =>
    match raiseForStatus r st with
    | some m => .error ⟨500, errFetchTagsMsg ++ m⟩
    | none => .ok (jArr (docGetD body keyResults (.arr [])))

/-- `fetch_paperless_tags`: the result together with the single GET it issues. -/
def fetch_paperless_tags (cfg : Config) (h : Http) :
    Except HErr (List JsonVal) × List Effect :=
  (fetchTagsResult cfg h, [Effect.get (tagsRequest cfg)])

/-- `update_paperless_document`: fetch the current document (a fetch failure
propagates out as the fetch's own `HTTPException`, before any PUT is issued),
shallow-merge `update_data` over it with `{**current_doc, **update_data}`, and
PUT the merged document. A failing PUT was still issued, and is wrapped as
`HTTPException(500, "Error updating document: " + str(e))`. -/
def update_paperless_document (cfg : Config) (h : Http) (document_id : Int)
    (update_data : List (Str × JsonVal)) : Except HErr JsonVal × List Effect :=
  let r := documentRequest cfg document_id
  match (fetch_paperless_document cfg h document_id).1 with
  | .error e => (.error e, (fetch_paperless_document cfg h document_id).2)
  | .ok current_doc =>
    let updated_doc := JsonVal.obj (dictMerge (jFields current_doc) update_data)
    let res : Except HErr JsonVal :=
      match h.put r updated_doc with
      | .transport m => .error ⟨500, errUpdateDocMsg ++ m⟩
      | .response st body =>
        match raiseForStatus r st with
        | some m => .error ⟨500, errUpdateDocMsg ++ m⟩
        | none => .ok body
    (res, (fetch_paperless_document cfg h document_id).2 ++ [Effect.put r updated_doc])

/-- Resource `documents` (`get_documents`): wraps `fetch_paperless_documents`;
on success the dict `{"documents": documents}`, on any exception the dict
`{"error": str(e), "documents": []}`. -/
def get_documents (cfg : Config) (h : Http) (query : Option Str)
    (tag_id correspondent_id document_type_id : Option Int)
    (created_after created_before : Option Str) (limit : Nat) :
    JsonVal × List Effect :=
  let fd := fetch_paperless_documents cfg h query tag_id correspondent_id
    document_type_id created_after created_before limit
  match fd.1 with
  | .ok documents => (.obj [(keyDocuments, .arr documents)], fd.2)
  | .error e => (.obj [(keyError, .str (exnStr e)), (keyDocuments, .arr [])], fd.2)

/-- Resource `tags` (`get_tags`): on success `{"tags": tags}`, on any
exception `{"error": str(e), "tags": []}`. -/
def get_tags (cfg : Config) (h : Http) : JsonVal × List Effect :=
  let ft := fetch_paperless_tags cfg h
  match ft.1 with
  | .ok tags => (.obj [(keyTags, .arr tags)], ft.2)
  | .error e => (.obj [(keyError, .str (exnStr e)), (keyTags, .arr [])], ft.2)

/-- The failure dict `{"success": False, "error": str(e), "document_id": id}`
returned by `tool_update_document_tags` and `tool_analyze_document`. -/
def toolFailObj (e : HErr) (document_id : Int) : JsonVal :=
  .obj [(keySuccess, .bool false), (keyError, .str (exnStr e)),
        (keyDocumentId, .num document_id)]

/-- The failure dict of `tool_search_similar_documents`
(`{"success": False, "error": str(e), "reference_document_id": id}`). -/
def simFailObj (e : HErr) (document_id : Int) : JsonVal :=
  .obj [(keySuccess, .bool false), (keyError, .str (exnStr e)),
        (keyReferenceDocumentId, .num document_id)]

/-- The tag-list computation of `tool_update_document_tags` (lines 480-490):
append each `add_tags` id not already present, then drop every id in
`remove_tags`; the `if add_tags:`/`if remove_tags:` guards are Python
truthiness on the lists. -/
def computeNewTags (current_tags add_tags remove_tags : List Int) : List Int :=
  let afterAdd :=
    if add_tags.isEmpty then current_tags
    else add_tags.foldl
      (fun acc tag_id => if tag_id ∈ acc then acc else acc ++ [tag_id]) current_tags
  if remove_tags.isEmpty then afterAdd
  else afterAdd.filter (fun tag_id => decide (tag_id ∉ remove_tags))

/-- The success dict of `tool_update_document_tags`; `updated_tags` is the raw
`updated_doc.get("tags", [])` of the document returned by the PUT. -/
def updateTagsSuccessObj (document_id : Int) (updated_tags : JsonVal) : JsonVal :=
  .obj [(keySuccess, .bool true), (keyDocumentId, .num document_id),
        (keyUpdatedTags, updated_tags),
        (keyMessage, .str (cs ("Tags updated successfully")))]

/-- Tool `update_document_tags` (`tool_update_document_tags`): fetch the
document, rework its tag list with `computeNewTags`, and send the new list
through `update_paperless_document`; any `HTTPException` along the way is
caught and reported as `toolFailObj`. `add_tags`/`remove_tags` absent
(`None`) behaves as the empty list. -/
def tool_update_document_tags (cfg : Config) (h : Http) (document_id : Int)
    (add_tags remove_tags : List Int) : JsonVal × List Effect :=
  let fd := fetch_paperless_document cfg h document_id
  match fd.1 with
  | .error e => (toolFailObj e document_id, fd.2)
  | .ok document =>
    let current_tags := docTags document
    let new_tags := computeNewTags current_tags add_tags remove_tags
    let upd := update_paperless_document cfg h document_id
      [(keyTags, .arr (new_tags.map JsonVal.num))]
    match upd.1 with
    | .error e => (toolFailObj e document_id, fd.2 ++ upd.2)
    | .ok updated_doc =>
      (updateTagsSuccessObj document_id (docGetD updated_doc keyTags (.arr [])),
       fd.2 ++ upd.2)

/-- The dict comprehension `{tag["name"].lower(): tag["id"] for tag in all_tags}`
of `tool_analyze_document`: later tags override earlier ones that share the
same lowercased name. -/
def tagMappingOf (all_tags : List JsonVal) : List (Str × Int) :=
  all_tags.foldl (fun m t => dictInsert m (lowerStr (tagName t)) (tagId t)) []

/-- The suggestion loop of `tool_analyze_document`: walk the tag mapping and
keep every id whose (lowercased) name occurs in the lowercased title or
content. -/
def suggestedTagIdsOf (all_tags : List JsonVal) (title content : Str) : List Int :=
  (tagMappingOf all_tags).filterMap (fun p =>
    if strContains p.1 (lowerStr title) || strContains p.1 (lowerStr content)
    then some p.2 else none)

/-- The success dict of `tool_analyze_document`; `suggested_tags` is the
comprehension `[tag["name"] for tag in all_tags if tag["id"] in suggested_tag_ids]`
and `tags_updated` is the `update_automatically` argument itself. -/
def analyzeSuccessObj (document_id : Int) (document_title : Str)
    (all_tags : List JsonVal) (suggested_tag_ids : List Int)
    (update_automatically : Bool) : JsonVal :=
  .obj [(keySuccess, .bool true),
        (keyDocumentId, .num document_id),
        (keyDocumentTitle, .str document_title),
        (keySuggestedTags, .arr ((all_tags.filter
          (fun t => decide (tagId t ∈ suggested_tag_ids))).map
            (fun t => .str (tagName t)))),
        (keySuggestedTagIds, .arr (suggested_tag_ids.map JsonVal.num)),
        (keyTagsUpdated, .bool update_automatically),
        (keyMessage, .str (cs ("Document analyzed successfully")))]

/-- Tool `analyze_document` (`tool_analyze_document`): fetch the document and
the tag list, compute `suggestedTagIdsOf`, and, only when
`update_automatically and suggested_tag_ids` is truthy, write
`list(set(current_tags + suggested_tag_ids))` (modelled as `List.dedup` of the
concatenation - the claim layer only uses its set of elements, matching the
unspecified iteration order of a Python `set`) back through
`update_paperless_document`. -/
def tool_analyze_document (cfg : Config) (h : Http) (document_id : Int)
    (update_automatically : Bool) : JsonVal × List Effect :=
  let fd := fetch_paperless_document cfg h document_id
  match fd.1 with
  | .error e => (toolFailObj e document_id, fd.2)
  | .ok document =>
    let ftg := fetch_paperless_tags cfg h
    match ftg.1 with
    | .error e => (toolFailObj e document_id, fd.2 ++ ftg.2)
    | .ok all_tags =>
      let document_title := docTitle document
      let document_content := docContent document
      let suggested_tag_ids := suggestedTagIdsOf all_tags document_title document_content
      if update_automatically && !suggested_tag_ids.isEmpty then
        let current_tags := docTags document
        let new_tags := (current_tags ++ suggested_tag_ids).dedup
        let upd := update_paperless_document cfg h document_id
          [(keyTags, .arr (new_tags.map JsonVal.num))]
        match upd.1 with
        | .error e => (toolFailObj e document_id, fd.2 ++ ftg.2 ++ upd.2)
        | .ok _ =>
          (analyzeSuccessObj document_id document_title all_tags suggested_tag_ids
            update_automatically, fd.2 ++ ftg.2 ++ upd.2)
      else
        (analyzeSuccessObj document_id document_title all_tags suggested_tag_ids
          update_automatically, fd.2 ++ ftg.2)

def optNumJson : Option Int → JsonVal
  | some n => .num n
  | none => .null

/-- The success dict of `tool_search_similar_documents`. -/
def simSuccessObj (document_id : Int) (reference_doc : JsonVal)
    (similar_docs : List JsonVal) : JsonVal :=
  .obj [(keySuccess, .bool true),
        (keyReferenceDocumentId, .num document_id),
        (keySimilarDocuments, .arr similar_docs),
        (keySimilarityCriteria, .obj
          [(keyCorrespondentId, optNumJson (docCorrespondent reference_doc)),
           (keyDocumentType, optNumJson (docDocumentType reference_doc)),
           (keyTags, docGetD reference_doc keyTags (.arr []))])]

/-- Tool `search_similar_documents` (`tool_search_similar_documents`): fetch
the reference document, list documents filtered by its correspondent and
document type with `limit = max_results + 1`, drop the reference document by
id comparison and keep the first `max_results`. -/
def tool_search_similar_documents (cfg : Config) (h : Http) (document_id : Int)
    (max_results : Nat) : JsonVal × List Effect :=
  let fd := fetch_paperless_document cfg h document_id
  match fd.1 with
  | .error e => (simFailObj e document_id, fd.2)
  | .ok reference_doc =>
    let correspondent_id := docCorrespondent reference_doc
    let document_type := docDocumentType reference_doc
    let fl := fetch_paperless_documents cfg h none none correspondent_id
      document_type none none (max_results + 1)
    match fl.1 with
    | .error e => (simFailObj e document_id, fd.2 ++ fl.2)
    | .ok docs =>
      let similar_docs := (docs.filter (fun doc => docId doc != document_id)).take max_results
      (simSuccessObj document_id reference_doc similar_docs, fd.2 ++ fl.2)

/-- Modelled from the spec: the resource/tool registry of the
`mcp_api_adapter` module, which `src/src/mcp_server.py` imports but which is
not among the sources. A parameter descriptor carries a name and a required
flag (section 4.2: parameter validation is limited to required/optional
presence). -/
structure ParameterM where
  pname : Str
  required : Bool

/-- Modelled from the spec: one registered tool/resource entry - unique name,
parameter schema, handler function. -/
structure ToolEntry where
  tname : Str
  params : List ParameterM
  handler : List (Str × JsonVal) → JsonVal

/-- Modelled from the spec: the registry built at process start from the
`@adapter.resource`/`@adapter.tool` registrations. -/
structure RegistryM where
  tools : List ToolEntry

/-- Modelled from the spec: outcome of invoking a name on the registry - a
structured result, never a process-fatal fault. -/
inductive InvokeOutcome where
  | notFoundError (nm : Str)
  | missingParameter (pname : Str)
  | success (result : JsonVal)

def findTool (reg : RegistryM) (nm : Str) : Option ToolEntry :=
  reg.tools.find? (fun t => t.tname = nm)

/-- Modelled from the spec: `invokeTool(name, params)` - unknown names yield a
`NotFoundError`; known names are validated for required-parameter presence and
then dispatched to the handler. -/
def invokeTool (reg : RegistryM) (nm : Str) (args : List (Str × JsonVal)) :
    InvokeOutcome :=
  match findTool reg nm with
  | none => .notFoundError nm
  | some t =>
    match t.params.find? (fun p => p.required && (dictGet? args p.pname).isNone) with
    | some p => .missingParameter p.pname
    | none => .success (t.handler args)

/-- A configuration with concrete URLs/tokens, for concrete evaluations. -/
def cfg0 : Config :=
  { paperlessUrl := cs ("http://paperless.local/api/")
    paperlessToken := cs ("ptok")
    n8nUrl := cs ("http://n8n.local/api/")
    n8nToken := cs ("ntok") }

/-- A transport where every request fails with a connection error. -/
def httpDown : Http :=
  { get := fun _ => .transport (cs ("connection refused"))
    put := fun _ _ => .transport (cs ("connection refused"))
    post := fun _ _ => .transport (cs ("connection refused")) }

/-- A transport where every request yields a 404 response. -/
def http404 : Http :=
  { get := fun _ => .response 404 JsonVal.null
    put := fun _ _ => .response 404 JsonVal.null
    post := fun _ _ => .response 404 JsonVal.null }

/-- A tag object as served by the Paperless-ngx tag listing. -/
def tagObj (i : Int) (nm : String) : JsonVal :=
  .obj [(keyId, .num i), (keyName, .str (cs nm))]

/-- The tag set of the spec's tag-suggestion example. -/
def exTags3 : List JsonVal :=
  [tagObj 1 ("invoice"), tagObj 2 ("acme"), tagObj 3 ("receipt")]

/-- The document of the spec's tag-suggestion example. -/
def exDocAcme : JsonVal :=
  .obj [(keyId, .num 7), (keyTitle, .str (cs ("Invoice from Acme Corp"))),
        (keyContent, .str (cs (""))), (keyTags, .arr []),
        (keyCorrespondent, .num 3), (keyDocumentType, .num 2)]

/-- A transport serving `exDocAcme` as document 7 and `exTags3` as tag list. -/
def httpAcme : Http :=
  { get := fun r =>
      if r.url = (documentRequest cfg0 7).url then .response 200 exDocAcme
      else if r.url = (tagsRequest cfg0).url then
        .response 200 (.obj [(keyResults, .arr exTags3)])
      else .transport (cs ("connection refused"))
    put := fun _ _ => .response 200 JsonVal.null
    post := fun _ _ => .response 200 JsonVal.null }

/-- Two distinct tags whose names differ only in case. -/
def dupTags : List JsonVal := [tagObj 1 ("Invoice"), tagObj 2 ("invoice")]

/-- A document whose title contains the case-folded name of both `dupTags`. -/
def exDocDup : JsonVal :=
  .obj [(keyId, .num 4), (keyTitle, .str (cs ("invoice"))),
        (keyContent, .str (cs (""))), (keyTags, .arr [])]

/-- A transport serving `exDocDup` as document 4 and `dupTags` as tag list. -/
def httpDup : Http :=
  { get := fun r =>
      if r.url = (documentRequest cfg0 4).url then .response 200 exDocDup
      else if r.url = (tagsRequest cfg0).url then
        .response 200 (.obj [(keyResults, .arr dupTags)])
      else .transport (cs ("connection refused"))
    put := fun _ _ => .response 200 JsonVal.null
    post := fun _ _ => .response 200 JsonVal.null }

/-- The document of the spec's read-modify-write example. -/
def exDocA : JsonVal :=
  .obj [(keyId, .num 1), (keyTitle, .str (cs ("A"))),
        (keyTags, .arr [.num 1, .num 2]), (keyCorrespondent, .num 5)]

/-- A transport serving `exDocA` as document 1 and accepting every PUT. -/
def httpDocA : Http :=
  { get := fun r =>
      if r.url = (documentRequest cfg0 1).url then .response 200 exDocA
      else .transport (cs ("connection refused"))
    put := fun _ _ => .response 200 JsonVal.null
    post := fun _ _ => .response 200 JsonVal.null }

/-- A document for the similarity example: id `i`, correspondent 3, type 2. -/
def simDoc (i : Int) : JsonVal :=
  .obj [(keyId, .num i), (keyCorrespondent, .num 3), (keyDocumentType, .num 2)]

/-- A transport for the similarity example: document 7 is the reference, and
the filtered document listing returns documents 7, 8, 9. -/
def httpSim : Http :=
  { get := fun r =>
      if r.url = (documentRequest cfg0 7).url then .response 200 (simDoc 7)
      else if r.url = (documentsRequest cfg0 none none (some 3) (some 2) none none 2).url then
        .response 200 (.obj [(keyResults, .arr [simDoc 7, simDoc 8, simDoc 9])])
      else .transport (cs ("connection refused"))
    put := fun _ _ => .response 200 JsonVal.null
    post := fun _ _ => .response 200 JsonVal.null }

/-- A document matching none of the known tag names. -/
def exDocZzz : JsonVal :=
  .obj [(keyId, .num 3), (keyTitle, .str (cs ("zzz"))),
        (keyContent, .str (cs (""))), (keyTags, .arr [.num 1])]

/-- A transport serving `exDocZzz` as document 3 with one known tag
`invoice`, which does not occur in the document text. -/
def httpZzz : Http :=
  { get := fun r =>
      if r.url = (documentRequest cfg0 3).url then .response 200 exDocZzz
      else if r.url = (tagsRequest cfg0).url then
        .response 200 (.obj [(keyResults, .arr [tagObj 1 ("invoice")])])
      else .transport (cs ("connection refused"))
    put := fun _ _ => .response 200 JsonVal.null
    post := fun _ _ => .response 200 JsonVal.null }

/-- A one-tool registry for concrete registry invocations. -/
def reg0 : RegistryM :=
  { tools := [{ tname := cs ("update_document_tags")
                params := [{ pname := cs ("document_id"), required := true },
                           { pname := cs ("add_tags"), required := false }]
                handler := fun _ => .obj [(keySuccess, .bool true)] }] }

/-- The `HTTPException` produced by a document fetch over `httpDown`. -/
def errDown : HErr := ⟨500, errFetchDocMsg ++ cs ("connection refused")⟩

/-- The `HTTPException` produced by a documents listing over `httpDown`. -/
def errDownDocs : HErr := ⟨500, errFetchDocsMsg ++ cs ("connection refused")⟩

/-- The `HTTPException` produced by a tag listing over `httpDown`. -/
def errDownTags : HErr := ⟨500, errFetchTagsMsg ++ cs ("connection refused")⟩

theorem strContains_iff (a b : Str) : strContains a b = true ↔ List.IsInfix a b := by
  simp [strContains]

theorem dictGet_dictInsert_self {α : Type} (d : List (Str × α)) (k : Str) (v : α) :
    dictGet? (dictInsert d k v) k = some v := by
  induction d with
  | nil => simp [dictInsert, dictGet?]
  | cons p rest ih =>
    obtain ⟨k', v'⟩ := p
    by_cases hk : k' = k
    · simp [dictInsert, hk, dictGet?]
    · simp [dictInsert, hk, dictGet?, ih]

theorem dictGet_dictInsert_ne {α : Type} (d : List (Str × α)) (k' k : Str) (v : α)
    (h : k' ≠ k) : dictGet? (dictInsert d k' v) k = dictGet? d k := by
  induction d with
  | nil => simp [dictInsert, dictGet?, h]
  | cons p rest ih =>
    obtain ⟨k1, v1⟩ := p
    by_cases hk : k1 = k'
    · subst hk
      simp [dictInsert, dictGet?, h]
    · simp [dictInsert, hk, dictGet?, ih]

theorem dictGet_eq_none {α : Type} (d : List (Str × α)) (k : Str)
    (h : k ∉ d.map Prod.fst) : dictGet? d k = none := by
  induction d with
  | nil => simp [dictGet?]
  | cons p rest ih =>
    simp only [List.map_cons, List.mem_cons] at h
    push_neg at h
    obtain ⟨k1, v1⟩ := p
    exact by simp [dictGet?, Ne.symm h.1, ih h.2]

theorem dictGet_ne_none {α : Type} (d : List (Str × α)) (k : Str)
    (h : k ∈ d.map Prod.fst) : dictGet? d k ≠ none := by
  induction d with
  | nil => simp at h
  | cons p rest ih =>
    obtain ⟨k1, v1⟩ := p
    simp only [List.map_cons, List.mem_cons] at h
    by_cases hk : k1 = k
    · simp [dictGet?, hk]
    · rcases h with h | h
      · exact absurd h.symm hk
      · simp [dictGet?, hk, ih h]

theorem dictGet_dictMerge {α : Type} (cur upd : List (Str × α)) (k : Str)
    (h : (upd.map Prod.fst).Nodup) :
    dictGet? (dictMerge cur upd) k
      = match dictGet? upd k with
        | some v => some v
        | none => dictGet? cur k := by
  induction upd generalizing cur with
  | nil => simp [dictMerge, dictGet?]
  | cons p rest ih =>
    obtain ⟨k1, v1⟩ := p
    simp only [List.map_cons, List.nodup_cons] at h
    have hmerge : dictMerge cur ((k1, v1) :: rest) = dictMerge (dictInsert cur k1 v1) rest := rfl
    rw [hmerge, ih _ h.2]
    by_cases hk : k1 = k
    · subst hk
      have hnone : dictGet? rest k1 = none := dictGet_eq_none _ _ h.1
      simp [hnone, dictGet?, dictGet_dictInsert_self]
    · cases hrk : dictGet? rest k with
      | some v => simp [dictGet?, hk, hrk]
      | none => simp [dictGet?, hk, hrk, dictGet_dictInsert_ne _ _ _ _ hk]

theorem dictInsert_fresh {α : Type} (d : List (Str × α)) (k : Str) (v : α)
    (h : k ∉ d.map Prod.fst) : dictInsert d k v = d ++ [(k, v)] := by
  induction d with
  | nil => simp [dictInsert]
  | cons p rest ih =>
    simp only [List.map_cons, List.mem_cons] at h
    push_neg at h
    obtain ⟨k1, v1⟩ := p
    simp [dictInsert, Ne.symm h.1, ih h.2]

theorem foldl_dictInsert_fresh (ts : List JsonVal) (m : List (Str × Int))
    (hfresh : ∀ t ∈ ts, lowerStr (tagName t) ∉ m.map Prod.fst)
    (hnd : (ts.map (fun t => lowerStr (tagName t))).Nodup) :
    ts.foldl (fun m t => dictInsert m (lowerStr (tagName t)) (tagId t)) m
      = m ++ ts.map (fun t => (lowerStr (tagName t), tagId t)) := by
  induction ts generalizing m with
  | nil => simp
  | cons t rest ih =>
    simp only [List.map_cons, List.nodup_cons] at hnd
    have h1 : lowerStr (tagName t) ∉ m.map Prod.fst := hfresh t (by simp)
    rw [List.foldl_cons, dictInsert_fresh _ _ _ h1, ih]
    · simp
    · intro t' ht'
      simp only [List.map_append, List.mem_append, List.map_cons, List.map_nil,
        List.mem_singleton, Prod.fst]
      push_neg
      refine ⟨hfresh t' (by simp [ht']), ?_⟩
      intro hEq
      exact hnd.1 (hEq ▸ List.mem_map_of_mem _ ht')
    · exact hnd.2

theorem tagMappingOf_eq (ts : List JsonVal)
    (hnd : (ts.map (fun t => lowerStr (tagName t))).Nodup) :
    tagMappingOf ts = ts.map (fun t => (lowerStr (tagName t), tagId t)) := by
  simpa [tagMappingOf] using foldl_dictInsert_fresh ts [] (by simp) hnd

theorem suggestedTagIdsOf_eq (ts : List JsonVal) (title content : Str)
    (hnd : (ts.map (fun t => lowerStr (tagName t))).Nodup) :
    suggestedTagIdsOf ts title content
      = ts.filterMap (fun t =>
          if strContains (lowerStr (tagName t)) (lowerStr title)
             || strContains (lowerStr (tagName t)) (lowerStr content)
          then some (tagId t) else none) := by
  rw [suggestedTagIdsOf, tagMappingOf_eq ts hnd, List.filterMap_map]
  rfl

theorem mem_suggestedTagIdsOf (ts : List JsonVal) (title content : Str) (t0 : JsonVal)
    (hnd : (ts.map (fun t => lowerStr (tagName t))).Nodup)
    (hids : (ts.map tagId).Nodup) (ht0 : t0 ∈ ts) :
    tagId t0 ∈ suggestedTagIdsOf ts title content
      ↔ (List.IsInfix (lowerStr (tagName t0)) (lowerStr title)
          ∨ List.IsInfix (lowerStr (tagName t0)) (lowerStr content)) := by
  rw [suggestedTagIdsOf_eq ts title content hnd]
  constructor
  · intro hmem
    rcases List.mem_filterMap.1 hmem with ⟨t, ht, hft⟩
    by_cases hc : (strContains (lowerStr (tagName t)) (lowerStr title)
        || strContains (lowerStr (tagName t)) (lowerStr content)) = true
    · rw [if_pos hc] at hft
      have hteq : t = t0 := List.inj_on_of_nodup_map hids ht ht0 (Option.some.inj hft)
      subst hteq
      have hc' : strContains (lowerStr (tagName t)) (lowerStr title) = true
          ∨ strContains (lowerStr (tagName t)) (lowerStr content) = true := by
        simpa using hc
      rcases hc' with h1 | h1
      · exact Or.inl ((strContains_iff _ _).1 h1)
      · exact Or.inr ((strContains_iff _ _).1 h1)
    · rw [if_neg hc] at hft
      exact absurd hft (by simp)
  · intro hinf
    refine List.mem_filterMap.2 ⟨t0, ht0, ?_⟩
    have hc : (strContains (lowerStr (tagName t0)) (lowerStr title)
        || strContains (lowerStr (tagName t0)) (lowerStr content)) = true := by
      rcases hinf with h1 | h1
      · simp [(strContains_iff _ _).2 h1]
      · simp [(strContains_iff _ _).2 h1]
    rw [if_pos hc]

theorem mem_addFoldTags (add cur : List Int) (t : Int) :
    t ∈ add.foldl (fun acc tag_id => if tag_id ∈ acc then acc else acc ++ [tag_id]) cur
      ↔ t ∈ cur ∨ t ∈ add := by
  induction add generalizing cur with
  | nil => simp
  | cons x rest ih =>
    rw [List.foldl_cons, ih]
    have hstep : t ∈ (if x ∈ cur then cur else cur ++ [x]) ↔ t ∈ cur ∨ t = x := by
      by_cases hx : x ∈ cur
      · rw [if_pos hx]
        constructor
        · exact fun h => Or.inl h
        · rintro (h | h)
          · exact h
          · exact h ▸ hx
      · rw [if_neg hx]
        simp
    rw [hstep]
    simp only [List.mem_cons]
    tauto

theorem mem_afterAdd (cur add : List Int) (t : Int) :
    t ∈ (if add.isEmpty then cur
         else add.foldl (fun acc tag_id => if tag_id ∈ acc then acc else acc ++ [tag_id]) cur)
      ↔ t ∈ cur ∨ t ∈ add := by
  by_cases hadd : add.isEmpty
  · rw [if_pos hadd]
    rw [List.isEmpty_iff] at hadd
    subst hadd
    simp
  · rw [if_neg hadd]
    exact mem_addFoldTags add cur t

theorem mem_computeNewTags (cur add rem : List Int) (t : Int) :
    t ∈ computeNewTags cur add rem ↔ (t ∈ cur ∨ t ∈ add) ∧ t ∉ rem := by
  simp only [computeNewTags]
  by_cases hrem : rem.isEmpty
  · rw [if_pos hrem, mem_afterAdd]
    rw [List.isEmpty_iff] at hrem
    subst hrem
    simp
  · rw [if_neg hrem, List.mem_filter, mem_afterAdd]
    simp

theorem update_snd (cfg : Config) (h : Http) (document_id : Int)
    (update_data : List (Str × JsonVal)) (doc : JsonVal)
    (hfetch : fetchDocResult cfg h document_id = .ok doc) :
    (update_paperless_document cfg h document_id update_data).2
      = [Effect.get (documentRequest cfg document_id),
         Effect.put (documentRequest cfg document_id)
           (JsonVal.obj (dictMerge (jFields doc) update_data))] := by
  simp only [update_paperless_document, fetch_paperless_document, hfetch]
  rfl

/-- C2: `update_paperless_document` is a shallow read-modify-write merge: given
a successful fetch of the current document, the single PUT it issues carries
`{**current_doc, **update_data}`, whose fields are the payload's values on the
payload's keys and the fetched document's values elsewhere (nested structures
are replaced wholesale, since merging only rebinds top-level keys). -/
theorem claim_C2 (cfg : Config) (h : Http) (document_id : Int)
    (cur update_data : List (Str × JsonVal))
    (hfetch : fetchDocResult cfg h document_id = .ok (.obj cur))
    (hkeys : (update_data.map Prod.fst).Nodup) :
    (update_paperless_document cfg h document_id update_data).2
      = [Effect.get (documentRequest cfg document_id),
         Effect.put (documentRequest cfg document_id)
           (JsonVal.obj (dictMerge cur update_data))]
    ∧ (∀ k, k ∈ update_data.map Prod.fst →
        dictGet? (dictMerge cur update_data) k = dictGet? update_data k)
    ∧ (∀ k, k ∉ update_data.map Prod.fst →
        dictGet? (dictMerge cur update_data) k = dictGet? cur k) := by
  refine ⟨?_, ?_, ?_⟩
  · have := update_snd cfg h document_id update_data (.obj cur) hfetch
    simpa [jFields] using this
  · intro k hk
    rw [dictGet_dictMerge cur update_data k hkeys]
    cases hv : dictGet? update_data k with
    | some v => rfl
    | none => exact absurd hv (dictGet_ne_none _ _ hk)
  · intro k hk
    rw [dictGet_dictMerge cur update_data k hkeys, dictGet_eq_none _ _ hk]

/-- Witness for C2 at the spec's example: document `{title: "A", tags: [1,2],
correspondent: 5}` updated with payload `{tags: [1,2,3]}` - the PUT carries the
shallow merge, whose `tags` field is the payload's and whose `title` and
`correspondent` fields are the fetched document's. -/
theorem claim_C2_witness :
    (update_paperless_document cfg0 httpDocA 1
        [(keyTags, JsonVal.arr [.num 1, .num 2, .num 3])]).2
      = [Effect.get (documentRequest cfg0 1),
         Effect.put (documentRequest cfg0 1)
           (JsonVal.obj (dictMerge (jFields exDocA)
             [(keyTags, JsonVal.arr [.num 1, .num 2, .num 3])]))]
    ∧ dictGet? (dictMerge (jFields exDocA)
        [(keyTags, JsonVal.arr [.num 1, .num 2, .num 3])]) keyTags
      = dictGet? [(keyTags, JsonVal.arr [.num 1, .num 2, .num 3])] keyTags
    ∧ dictGet? (dictMerge (jFields exDocA)
        [(keyTags, JsonVal.arr [.num 1, .num 2, .num 3])]) keyTitle
      = dictGet? (jFields exDocA) keyTitle
    ∧ dictGet? (dictMerge (jFields exDocA)
        [(keyTags, JsonVal.arr [.num 1, .num 2, .num 3])]) keyCorrespondent
      = dictGet? (jFields exDocA) keyCorrespondent :=
  ⟨(claim_C2 cfg0 httpDocA 1 (jFields exDocA)
      [(keyTags, JsonVal.arr [.num 1, .num 2, .num 3])] rfl (by decide)).1,
   (claim_C2 cfg0 httpDocA 1 (jFields exDocA)
      [(keyTags, JsonVal.arr [.num 1, .num 2, .num 3])] rfl (by decide)).2.1
     keyTags (by decide),
   (claim_C2 cfg0 httpDocA 1 (jFields exDocA)
      [(keyTags, JsonVal.arr [.num 1, .num 2, .num 3])] rfl (by decide)).2.2
     keyTitle (by decide),
   (claim_C2 cfg0 httpDocA 1 (jFields exDocA)
      [(keyTags, JsonVal.arr [.num 1, .num 2, .num 3])] rfl (by decide)).2.2
     keyCorrespondent (by decide)⟩

/-- C9: in `tool_update_document_tags`, removal wins over addition - the PUT
body's tag list is `computeNewTags`, in which every id occurring in both
`add_tags` and `remove_tags` is absent (the removal filter runs after the
additions), and ids in neither list keep their membership unchanged. -/
theorem claim_C9 (cfg : Config) (h : Http) (document_id : Int)
    (add_tags remove_tags : List Int) (doc : JsonVal)
    (hfetch : fetchDocResult cfg h document_id = .ok doc) :
    (tool_update_document_tags cfg h document_id add_tags remove_tags).2
      = [Effect.get (documentRequest cfg document_id),
         Effect.get (documentRequest cfg document_id),
         Effect.put (documentRequest cfg document_id)
           (JsonVal.obj (dictMerge (jFields doc)
             [(keyTags, JsonVal.arr
               ((computeNewTags (docTags doc) add_tags remove_tags).map JsonVal.num))]))]
    ∧ (∀ t, t ∈ add_tags → t ∈ remove_tags →
        t ∉ computeNewTags (docTags doc) add_tags remove_tags)
    ∧ (∀ t, t ∉ add_tags → t ∉ remove_tags →
        (t ∈ computeNewTags (docTags doc) add_tags remove_tags ↔ t ∈ docTags doc)) := by
  refine ⟨?_, ?_, ?_⟩
  · simp only [tool_update_document_tags, fetch_paperless_document, hfetch]
    cases hu : (update_paperless_document cfg h document_id
        [(keyTags, JsonVal.arr
          ((computeNewTags (docTags doc) add_tags remove_tags).map JsonVal.num))]).1 with
    | error e =>
      simp only [hu]
      rw [update_snd cfg h document_id _ doc hfetch]
      rfl
    | ok u =>
      simp only [hu]
      rw [update_snd cfg h document_id _ doc hfetch]
      rfl
  · intro t hta htr
    rw [mem_computeNewTags]
    intro hc
    exact hc.2 htr
  · intro t hta htr
    rw [mem_computeNewTags]
    constructor
    · rintro ⟨hor, _⟩
      rcases hor with hc | hc
      · exact hc
      · exact absurd hc hta
    · exact fun hc => ⟨Or.inl hc, htr⟩

/-- Witness for C9 at a concrete input: document tags `[1, 2]`, `add_tags =
[2, 3]`, `remove_tags = [3, 1]`; tag 3, present in both lists, is absent from
the written list, and tag 5, present in neither, stays absent. -/
theorem claim_C9_witness :
    (tool_update_document_tags cfg0 httpDocA 1 [2, 3] [3, 1]).2
      = [Effect.get (documentRequest cfg0 1),
         Effect.get (documentRequest cfg0 1),
         Effect.put (documentRequest cfg0 1)
           (JsonVal.obj (dictMerge (jFields exDocA)
             [(keyTags, JsonVal.arr
               ((computeNewTags (docTags exDocA) [2, 3] [3, 1]).map JsonVal.num))]))]
    ∧ (3 : Int) ∉ computeNewTags (docTags exDocA) [2, 3] [3, 1]
    ∧ ((5 : Int) ∈ computeNewTags (docTags exDocA) [2, 3] [3, 1] ↔ (5 : Int) ∈ docTags exDocA) :=
  ⟨(claim_C9 cfg0 httpDocA 1 [2, 3] [3, 1] exDocA rfl).1,
   (claim_C9 cfg0 httpDocA 1 [2, 3] [3, 1] exDocA rfl).2.1 3 (by decide) (by decide),
   (claim_C9 cfg0 httpDocA 1 [2, 3] [3, 1] exDocA rfl).2.2 5 (by decide) (by decide)⟩

/-- C3: `tool_update_document_tags` is fetch-before-write - if the initial
document fetch fails, the tool returns the structured failure dict (which
carries the document id and the error message) having issued only that one
GET and no PUT; and a PUT can appear in its effect trace only when the fetch
succeeded. -/
theorem claim_C3 (cfg : Config) (h : Http) (document_id : Int)
    (add_tags remove_tags : List Int) :
    (∀ e, fetchDocResult cfg h document_id = .error e →
       tool_update_document_tags cfg h document_id add_tags remove_tags
         = (toolFailObj e document_id, [Effect.get (documentRequest cfg document_id)])
       ∧ dictGet? (jFields (toolFailObj e document_id)) keyDocumentId
           = some (.num document_id)
       ∧ dictGet? (jFields (toolFailObj e document_id)) keyError
           = some (.str (exnStr e)))
    ∧ ((tool_update_document_tags cfg h document_id add_tags remove_tags).2.any
          Effect.isPut = true →
        ∃ d, fetchDocResult cfg h document_id = .ok d) := by
  constructor
  · intro e he
    refine ⟨?_, ?_, ?_⟩
    · simp only [tool_update_document_tags, fetch_paperless_document, he]
    · rfl
    · rfl
  · intro hput
    cases hf : fetchDocResult cfg h document_id with
    | ok d => exact ⟨d, rfl⟩
    | error e =>
      have heq : tool_update_document_tags cfg h document_id add_tags remove_tags
          = (toolFailObj e document_id, [Effect.get (documentRequest cfg document_id)]) := by
        simp only [tool_update_document_tags, fetch_paperless_document, hf]
      rw [heq] at hput
      simp [Effect.isPut] at hput

/-- Witness for C3: over a transport where every request fails, updating the
tags of document 5 yields the failure dict with the document id and the error
message, and the only effect is the failed GET - no PUT. -/
theorem claim_C3_witness :
    tool_update_document_tags cfg0 httpDown 5 [1] [2]
      = (toolFailObj errDown 5, [Effect.get (documentRequest cfg0 5)])
    ∧ dictGet? (jFields (toolFailObj errDown 5)) keyDocumentId = some (.num 5)
    ∧ dictGet? (jFields (toolFailObj errDown 5)) keyError = some (.str (exnStr errDown)) :=
  (claim_C3 cfg0 httpDown 5 [1] [2]).1 errDown rfl

/-- C5: a failing upstream client call - transport failure or a 4xx/5xx
response (the statuses `raise_for_status` raises for) - surfaces immediately
as a structured `HTTPException` with status 500 and a detail embedding the
upstream error (the `raise_for_status` message carries the upstream status
code), and the client issues exactly one request: no retry. Stated for the
two cited clients, `fetch_paperless_documents` and `fetch_paperless_document`. -/
theorem claim_C5 (cfg : Config) (h : Http) (query : Option Str)
    (tag_id correspondent_id document_type_id : Option Int)
    (created_after created_before : Option Str) (limit : Nat) (document_id : Int) :
    (∀ m, h.get (documentsRequest cfg query tag_id correspondent_id document_type_id
        created_after created_before limit) = .transport m →
      fetch_paperless_documents cfg h query tag_id correspondent_id document_type_id
          created_after created_before limit
        = (.error ⟨500, errFetchDocsMsg ++ m⟩,
           [Effect.get (documentsRequest cfg query tag_id correspondent_id
             document_type_id created_after created_before limit)]))
    ∧ (∀ st body, h.get (documentsRequest cfg query tag_id correspondent_id
        document_type_id created_after created_before limit) = .response st body →
        400 ≤ st → st < 600 →
      fetch_paperless_documents cfg h query tag_id correspondent_id document_type_id
          created_after created_before limit
        = (.error ⟨500, errFetchDocsMsg ++ raiseForStatusMsg (documentsRequest cfg query
             tag_id correspondent_id document_type_id created_after created_before limit) st⟩,
           [Effect.get (documentsRequest cfg query tag_id correspondent_id
             document_type_id created_after created_before limit)]))
    ∧ (∀ m, h.get (documentRequest cfg document_id) = .transport m →
      fetch_paperless_document cfg h document_id
        = (.error ⟨500, errFetchDocMsg ++ m⟩,
           [Effect.get (documentRequest cfg document_id)]))
    ∧ (∀ st body, h.get (documentRequest cfg document_id) = .response st body →
        400 ≤ st → st < 600 →
      fetch_paperless_document cfg h document_id
        = (.error ⟨500, errFetchDocMsg ++ raiseForStatusMsg (documentRequest cfg document_id) st⟩,
           [Effect.get (documentRequest cfg document_id)])) := by
  refine ⟨?_, ?_, ?_, ?_⟩
  · intro m hm
    simp only [fetch_paperless_documents, fetchDocumentsResult, hm]
  · intro st body hr h4 h6
    simp only [fetch_paperless_documents, fetchDocumentsResult, hr, raiseForStatus,
      if_pos (And.intro h4 h6)]
  · intro m hm
    simp only [fetch_paperless_document, fetchDocResult, hm]
  · intro st body hr h4 h6
    simp only [fetch_paperless_document, fetchDocResult, hr, raiseForStatus,
      if_pos (And.intro h4 h6)]

/-- Witness for C5: a transport failure on the document listing and a 404 on a
single-document fetch each yield the one-request structured error. -/
theorem claim_C5_witness :
    fetch_paperless_documents cfg0 httpDown none none none none none none 100
      = (.error ⟨500, errFetchDocsMsg ++ cs ("connection refused")⟩,
         [Effect.get (documentsRequest cfg0 none none none none none none 100)])
    ∧ fetch_paperless_document cfg0 http404 9
      = (.error ⟨500, errFetchDocMsg ++ raiseForStatusMsg (documentRequest cfg0 9) 404⟩,
         [Effect.get (documentRequest cfg0 9)]) :=
  ⟨(claim_C5 cfg0 httpDown none none none none none none 100 9).1
     (cs ("connection refused")) rfl,
   (claim_C5 cfg0 http404 none none none none none none 100 9).2.2.2
     404 JsonVal.null rfl (by decide) (by decide)⟩

/-- C6: the listing resources `get_documents` and `get_tags` always return a
structured dict: on an upstream failure the dict still contains the collection
field, as an empty collection, next to the error marker; on success it
contains the collection. -/
theorem claim_C6 (cfg : Config) (h : Http) (query : Option Str)
    (tag_id correspondent_id document_type_id : Option Int)
    (created_after created_before : Option Str) (limit : Nat) :
    (∀ e, fetchDocumentsResult cfg h query tag_id correspondent_id document_type_id
        created_after created_before limit = .error e →
      (get_documents cfg h query tag_id correspondent_id document_type_id
          created_after created_before limit).1
        = .obj [(keyError, .str (exnStr e)), (keyDocuments, .arr [])])
    ∧ (∀ ds, fetchDocumentsResult cfg h query tag_id correspondent_id document_type_id
        created_after created_before limit = .ok ds →
      (get_documents cfg h query tag_id correspondent_id document_type_id
          created_after created_before limit).1
        = .obj [(keyDocuments, .arr ds)])
    ∧ (∀ e, fetchTagsResult cfg h = .error e →
      (get_tags cfg h).1 = .obj [(keyError, .str (exnStr e)), (keyTags, .arr [])])
    ∧ (∀ ts, fetchTagsResult cfg h = .ok ts →
      (get_tags cfg h).1 = .obj [(keyTags, .arr ts)]) := by
  refine ⟨?_, ?_, ?_, ?_⟩
  · intro e he
    simp only [get_documents, fetch_paperless_documents, he]
  · intro ds hds
    simp only [get_documents, fetch_paperless_documents, hds]
  · intro e he
    simp only [get_tags, fetch_paperless_tags, he]
  · intro ts hts
    simp only [get_tags, fetch_paperless_tags, hts]

/-- Witness for C6: with the transport down, the documents resource returns
the empty collection plus the error marker; over the similarity transport the
tags... (tag listing is down there too); over `httpAcme` it returns the tag
collection. -/
theorem claim_C6_witness :
    (get_documents cfg0 httpDown none none none none none none 100).1
      = .obj [(keyError, .str (exnStr errDownDocs)), (keyDocuments, .arr [])]
    ∧ (get_tags cfg0 httpDown).1
      = .obj [(keyError, .str (exnStr errDownTags)), (keyTags, .arr [])]
    ∧ (get_tags cfg0 httpAcme).1 = .obj [(keyTags, .arr exTags3)] :=
  ⟨(claim_C6 cfg0 httpDown none none none none none none 100).1 errDownDocs rfl,
   (claim_C6 cfg0 httpDown none none none none none none 100).2.2.1 errDownTags rfl,
   (claim_C6 cfg0 httpAcme none none none none none none 100).2.2.2 exTags3 rfl⟩

/-- C8 (registry modelled from the spec, the `mcp_api_adapter` module not
being among the sources): invoking an unknown name yields the structured
`NotFoundError` outcome, and invoking a known name whose required parameters
are all present dispatches to the handler and yields a structured success. -/
theorem claim_C8 (reg : RegistryM) (nm : Str) (args : List (Str × JsonVal)) :
    (findTool reg nm = none → invokeTool reg nm args = .notFoundError nm)
    ∧ (∀ t, findTool reg nm = some t →
        (∀ p ∈ t.params, p.required = true → (dictGet? args p.pname).isSome = true) →
        invokeTool reg nm args = .success (t.handler args)) := by
  constructor
  · intro hnone
    simp [invokeTool, hnone]
  · intro t ht hvalid
    have hfind : t.params.find? (fun p => p.required && (dictGet? args p.pname).isNone)
        = none := by
      rw [List.find?_eq_none]
      intro p hp hcontra
      rw [Bool.and_eq_true] at hcontra
      have h1 := hvalid p hp hcontra.1
      rw [Option.isNone_iff_eq_none] at hcontra
      rw [hcontra.2] at h1
      simp at h1
    simp [invokeTool, ht, hfind]

/-- Witness for C8 on the one-tool registry `reg0`: the unknown name
`missing_tool` yields `NotFoundError`, and the registered name invoked with
its required parameter present yields the handler's structured success. -/
theorem claim_C8_witness :
    invokeTool reg0 (cs ("missing_tool")) [] = .notFoundError (cs ("missing_tool"))
    ∧ invokeTool reg0 (cs ("update_document_tags")) [(cs ("document_id"), .num 1)]
        = .success (.obj [(keySuccess, .bool true)]) :=
  ⟨(claim_C8 reg0 (cs ("missing_tool")) []).1 rfl,
   (claim_C8 reg0 (cs ("update_document_tags")) [(cs ("document_id"), .num 1)]).2
     { tname := cs ("update_document_tags")
       params := [{ pname := cs ("document_id"), required := true },
                  { pname := cs ("add_tags"), required := false }]
       handler := fun _ => .obj [(keySuccess, .bool true)] }
     rfl (by decide)⟩

/-- C4: `tool_search_similar_documents` returns, in its success dict, the
upstream list with the reference document removed by id comparison, cut to at
most `max_results` elements, as a sublist (hence in upstream order) of the
upstream response. -/
theorem claim_C4 (cfg : Config) (h : Http) (document_id : Int) (max_results : Nat)
    (doc : JsonVal) (docs : List JsonVal)
    (hd : fetchDocResult cfg h document_id = .ok doc)
    (hl : fetchDocumentsResult cfg h none none (docCorrespondent doc)
        (docDocumentType doc) none none (max_results + 1) = .ok docs) :
    tool_search_similar_documents cfg h document_id max_results
      = (simSuccessObj document_id doc
          ((docs.filter (fun d => docId d != document_id)).take max_results),
         [Effect.get (documentRequest cfg document_id),
          Effect.get (documentsRequest cfg none none (docCorrespondent doc)
            (docDocumentType doc) none none (max_results + 1))])
    ∧ (∀ d ∈ (docs.filter (fun d => docId d != document_id)).take max_results,
        docId d ≠ document_id)
    ∧ ((docs.filter (fun d => docId d != document_id)).take max_results).length
        ≤ max_results
    ∧ ((docs.filter (fun d => docId d != document_id)).take max_results).Sublist docs := by
  refine ⟨?_, ?_, ?_, ?_⟩
  · simp only [tool_search_similar_documents, fetch_paperless_document, hd,
      fetch_paperless_documents, hl]
    rfl
  · intro d hdm
    have hmem := List.mem_filter.1 (List.mem_of_mem_take hdm)
    exact bne_iff_ne.1 hmem.2
  · exact List.length_take_le _ _
  · exact (List.take_sublist _ _).trans (List.filter_sublist _)

/-- Witness for C4 at the spec's example: reference document 7 with
correspondent 3 and type 2, upstream response `[7, 8, 9]`, `max_results = 1`:
the result is `[8]` - document 7 excluded, one element, upstream order. -/
theorem claim_C4_witness :
    tool_search_similar_documents cfg0 httpSim 7 1
      = (simSuccessObj 7 (simDoc 7)
          (([simDoc 7, simDoc 8, simDoc 9].filter (fun d => docId d != (7 : Int))).take 1),
         [Effect.get (documentRequest cfg0 7),
          Effect.get (documentsRequest cfg0 none none (docCorrespondent (simDoc 7))
            (docDocumentType (simDoc 7)) none none 2)])
    ∧ (([simDoc 7, simDoc 8, simDoc 9].filter (fun d => docId d != (7 : Int))).take 1).length ≤ 1
    ∧ ([simDoc 7, simDoc 8, simDoc 9].filter (fun d => docId d != (7 : Int))).take 1
        = [simDoc 8] :=
  ⟨(claim_C4 cfg0 httpSim 7 1 (simDoc 7) [simDoc 7, simDoc 8, simDoc 9] rfl rfl).1,
   (claim_C4 cfg0 httpSim 7 1 (simDoc 7) [simDoc 7, simDoc 8, simDoc 9] rfl rfl).2.2.1,
   rfl⟩

/-- C10: given successful fetches, `tool_analyze_document` issues a PUT iff
`update_automatically` is true and the suggested-tag list is non-empty; in the
no-write cases it still returns the success dict whose `tags_updated` field
equals the `update_automatically` argument. -/
theorem claim_C10 (cfg : Config) (h : Http) (document_id : Int)
    (update_automatically : Bool) (doc : JsonVal) (all_tags : List JsonVal)
    (hd : fetchDocResult cfg h document_id = .ok doc)
    (ht : fetchTagsResult cfg h = .ok all_tags) :
    ((tool_analyze_document cfg h document_id update_automatically).2.any Effect.isPut = true
      ↔ (update_automatically = true
          ∧ suggestedTagIdsOf all_tags (docTitle doc) (docContent doc) ≠ []))
    ∧ ((update_automatically = false
        ∨ suggestedTagIdsOf all_tags (docTitle doc) (docContent doc) = []) →
       tool_analyze_document cfg h document_id update_automatically
         = (analyzeSuccessObj document_id (docTitle doc) all_tags
             (suggestedTagIdsOf all_tags (docTitle doc) (docContent doc)) update_automatically,
            [Effect.get (documentRequest cfg document_id), Effect.get (tagsRequest cfg)])
       ∧ dictGet? (jFields (analyzeSuccessObj document_id (docTitle doc) all_tags
             (suggestedTagIdsOf all_tags (docTitle doc) (docContent doc)) update_automatically))
           keyTagsUpdated = some (.bool update_automatically)) := by
  by_cases hcase : update_automatically = true
      ∧ suggestedTagIdsOf all_tags (docTitle doc) (docContent doc) ≠ []
  · obtain ⟨hu, hs⟩ := hcase
    have hne' : (suggestedTagIdsOf all_tags (docTitle doc) (docContent doc)).isEmpty
        = false := by
      cases hsE : (suggestedTagIdsOf all_tags (docTitle doc) (docContent doc)).isEmpty
      · rfl
      · exact absurd (List.isEmpty_iff.1 hsE) hs
    have hcond : (update_automatically
        && !(suggestedTagIdsOf all_tags (docTitle doc) (docContent doc)).isEmpty) = true := by
      rw [hu, hne']
      rfl
    have h2 : (tool_analyze_document cfg h document_id update_automatically).2
        = [Effect.get (documentRequest cfg document_id), Effect.get (tagsRequest cfg),
           Effect.get (documentRequest cfg document_id),
           Effect.put (documentRequest cfg document_id)
             (JsonVal.obj (dictMerge (jFields doc)
               [(keyTags, JsonVal.arr (((docTags doc
                 ++ suggestedTagIdsOf all_tags (docTitle doc) (docContent doc)).dedup).map
                   JsonVal.num))]))] := by
      simp only [tool_analyze_document, fetch_paperless_document, hd,
        fetch_paperless_tags, ht]
      rw [if_pos hcond]
      cases hupd : (update_paperless_document cfg h document_id
          [(keyTags, JsonVal.arr (((docTags doc
            ++ suggestedTagIdsOf all_tags (docTitle doc) (docContent doc)).dedup).map
              JsonVal.num))]).1 with
      | error e =>
        simp only [hupd]
        rw [update_snd cfg h document_id _ doc hd]
        rfl
      | ok u =>
        simp only [hupd]
        rw [update_snd cfg h document_id _ doc hd]
        rfl
    constructor
    · rw [h2]
      constructor
      · intro _
        exact ⟨hu, hs⟩
      · intro _
        rfl
    · intro hor
      rcases hor with h1 | h1
      · rw [h1] at hu
        exact absurd hu (by simp)
      · exact absurd h1 hs
  · have hcond : (update_automatically
        && !(suggestedTagIdsOf all_tags (docTitle doc) (docContent doc)).isEmpty) = false := by
      cases hu : update_automatically with
      | false => rfl
      | true =>
        have hs : suggestedTagIdsOf all_tags (docTitle doc) (docContent doc) = [] := by
          by_contra hcon
          exact hcase ⟨hu, hcon⟩
        rw [hs]
        rfl
    have heq : tool_analyze_document cfg h document_id update_automatically
        = (analyzeSuccessObj document_id (docTitle doc) all_tags
            (suggestedTagIdsOf all_tags (docTitle doc) (docContent doc)) update_automatically,
           [Effect.get (documentRequest cfg document_id), Effect.get (tagsRequest cfg)]) := by
      simp only [tool_analyze_document, fetch_paperless_document, hd,
        fetch_paperless_tags, ht]
      rw [if_neg (by simp [hcond])]
      rfl
    constructor
    · rw [heq]
      constructor
      · intro habs
        simp [Effect.isPut] at habs
      · intro hcontra
        exact absurd hcontra hcase
    · intro _
      exact ⟨heq, rfl⟩

/-- Witness for C10: over `httpAcme` with `update_automatically = false`, the
tool issues only the two GETs (no PUT) and its success dict's `tags_updated`
field is `false`, equal to the argument. -/
theorem claim_C10_witness :
    tool_analyze_document cfg0 httpAcme 7 false
      = (analyzeSuccessObj 7 (docTitle exDocAcme) exTags3
          (suggestedTagIdsOf exTags3 (docTitle exDocAcme) (docContent exDocAcme)) false,
         [Effect.get (documentRequest cfg0 7), Effect.get (tagsRequest cfg0)])
    ∧ dictGet? (jFields (analyzeSuccessObj 7 (docTitle exDocAcme) exTags3
        (suggestedTagIdsOf exTags3 (docTitle exDocAcme) (docContent exDocAcme)) false))
        keyTagsUpdated = some (.bool false) :=
  (claim_C10 cfg0 httpAcme 7 false exDocAcme exTags3 rfl rfl).2 (Or.inl rfl)

/-- C7 (amended): when `update_automatically` is set AND at least one tag is
suggested, `tool_analyze_document` writes back, via the read-modify-write
update, the deduplicated union of the document's current tag ids with the
suggested tag ids (order unspecified; the written list is duplicate-free and
holds exactly the union's elements). The restriction to a non-empty
suggestion list is forced by `claim_C7_counterexample`: with no suggestions
the code skips the write entirely. -/
theorem claim_C7 (cfg : Config) (h : Http) (document_id : Int)
    (doc : JsonVal) (all_tags : List JsonVal)
    (hd : fetchDocResult cfg h document_id = .ok doc)
    (ht : fetchTagsResult cfg h = .ok all_tags)
    (hs : suggestedTagIdsOf all_tags (docTitle doc) (docContent doc) ≠ []) :
    (tool_analyze_document cfg h document_id true).2
      = [Effect.get (documentRequest cfg document_id), Effect.get (tagsRequest cfg),
         Effect.get (documentRequest cfg document_id),
         Effect.put (documentRequest cfg document_id)
           (JsonVal.obj (dictMerge (jFields doc)
             [(keyTags, JsonVal.arr (((docTags doc
               ++ suggestedTagIdsOf all_tags (docTitle doc) (docContent doc)).dedup).map
                 JsonVal.num))]))]
    ∧ dictGet? (dictMerge (jFields doc)
        [(keyTags, JsonVal.arr (((docTags doc
          ++ suggestedTagIdsOf all_tags (docTitle doc) (docContent doc)).dedup).map
            JsonVal.num))]) keyTags
      = some (JsonVal.arr (((docTags doc
          ++ suggestedTagIdsOf all_tags (docTitle doc) (docContent doc)).dedup).map
            JsonVal.num))
    ∧ (∀ t, t ∈ (docTags doc
          ++ suggestedTagIdsOf all_tags (docTitle doc) (docContent doc)).dedup
        ↔ t ∈ docTags doc
          ∨ t ∈ suggestedTagIdsOf all_tags (docTitle doc) (docContent doc))
    ∧ ((docTags doc
        ++ suggestedTagIdsOf all_tags (docTitle doc) (docContent doc)).dedup).Nodup := by
  have hne' : (suggestedTagIdsOf all_tags (docTitle doc) (docContent doc)).isEmpty
      = false := by
    cases hsE : (suggestedTagIdsOf all_tags (docTitle doc) (docContent doc)).isEmpty
    · rfl
    · exact absurd (List.isEmpty_iff.1 hsE) hs
  have hcond : ((true : Bool)
      && !(suggestedTagIdsOf all_tags (docTitle doc) (docContent doc)).isEmpty) = true := by
    rw [hne']
    rfl
  refine ⟨?_, ?_, ?_, ?_⟩
  · simp only [tool_analyze_document, fetch_paperless_document, hd,
      fetch_paperless_tags, ht]
    rw [if_pos hcond]
    cases hupd : (update_paperless_document cfg h document_id
        [(keyTags, JsonVal.arr (((docTags doc
          ++ suggestedTagIdsOf all_tags (docTitle doc) (docContent doc)).dedup).map
            JsonVal.num))]).1 with
    | error e =>
      simp only [hupd]
      rw [update_snd cfg h document_id _ doc hd]
      rfl
    | ok u =>
      simp only [hupd]
      rw [update_snd cfg h document_id _ doc hd]
      rfl
  · rw [dictGet_dictMerge _ _ _ (by simp)]
    rfl
  · intro t
    simp [List.mem_dedup, List.mem_append]
  · exact List.nodup_dedup _

/-- Counterexample to C7 as stated: over `httpZzz` the document fetch and tag
fetch succeed and `update_automatically` is set, but no tag name occurs in the
document, so the suggested-tag list is empty and the tool issues no write at
all - the unioned tag set is not written back. -/
theorem claim_C7_counterexample :
    (tool_analyze_document cfg0 httpZzz 3 true).2
      = [Effect.get (documentRequest cfg0 3), Effect.get (tagsRequest cfg0)]
    ∧ (tool_analyze_document cfg0 httpZzz 3 true).2.any Effect.isPut = false
    ∧ (tool_analyze_document cfg0 httpZzz 3 true).1
      = analyzeSuccessObj 3 (cs ("zzz")) [tagObj 1 ("invoice")] [] true :=
  ⟨rfl, rfl, rfl⟩

/-- Witness for C7 at the spec's example document: tags `invoice` and `acme`
are suggested for document 7 (current tags empty), `update_automatically` is
set, and the single PUT carries the deduplicated union `[1, 2]`. -/
theorem claim_C7_witness :
    (tool_analyze_document cfg0 httpAcme 7 true).2
      = [Effect.get (documentRequest cfg0 7), Effect.get (tagsRequest cfg0),
         Effect.get (documentRequest cfg0 7),
         Effect.put (documentRequest cfg0 7)
           (JsonVal.obj (dictMerge (jFields exDocAcme)
             [(keyTags, JsonVal.arr (((docTags exDocAcme
               ++ suggestedTagIdsOf exTags3 (docTitle exDocAcme) (docContent exDocAcme)).dedup).map
                 JsonVal.num))]))]
    ∧ ((1 : Int) ∈ (docTags exDocAcme
          ++ suggestedTagIdsOf exTags3 (docTitle exDocAcme) (docContent exDocAcme)).dedup
        ↔ (1 : Int) ∈ docTags exDocAcme
          ∨ (1 : Int) ∈ suggestedTagIdsOf exTags3 (docTitle exDocAcme) (docContent exDocAcme))
    ∧ ((docTags exDocAcme
        ++ suggestedTagIdsOf exTags3 (docTitle exDocAcme) (docContent exDocAcme)).dedup).Nodup
    ∧ (docTags exDocAcme
        ++ suggestedTagIdsOf exTags3 (docTitle exDocAcme) (docContent exDocAcme)).dedup
      = [1, 2] :=
  ⟨(claim_C7 cfg0 httpAcme 7 exDocAcme exTags3 rfl rfl (by decide)).1,
   (claim_C7 cfg0 httpAcme 7 exDocAcme exTags3 rfl rfl (by decide)).2.2.1 1,
   (claim_C7 cfg0 httpAcme 7 exDocAcme exTags3 rfl rfl (by decide)).2.2.2,
   by decide⟩

/-- C1 (amended): provided the known tags have pairwise distinct case-folded
names and pairwise distinct identifiers, `tool_analyze_document` suggests a
tag if and only if its case-folded name occurs as a literal substring of the
case-folded title or of the case-folded content; the returned success dict
carries exactly `suggestedTagIdsOf`. The distinctness hypotheses are forced
by `claim_C1_counterexample`: the dict comprehension keyed on lowercased
names keeps only the last tag of each case-folded name. Stated for an
invocation with `update_automatically = false`, where no write path runs. -/
theorem claim_C1 (cfg : Config) (h : Http) (document_id : Int)
    (doc : JsonVal) (all_tags : List JsonVal)
    (hd : fetchDocResult cfg h document_id = .ok doc)
    (ht : fetchTagsResult cfg h = .ok all_tags)
    (hnames : (all_tags.map (fun t => lowerStr (tagName t))).Nodup)
    (hids : (all_tags.map tagId).Nodup) :
    tool_analyze_document cfg h document_id false
      = (analyzeSuccessObj document_id (docTitle doc) all_tags
          (suggestedTagIdsOf all_tags (docTitle doc) (docContent doc)) false,
         [Effect.get (documentRequest cfg document_id), Effect.get (tagsRequest cfg)])
    ∧ ∀ t ∈ all_tags,
        (tagId t ∈ suggestedTagIdsOf all_tags (docTitle doc) (docContent doc)
          ↔ (List.IsInfix (lowerStr (tagName t)) (lowerStr (docTitle doc))
              ∨ List.IsInfix (lowerStr (tagName t)) (lowerStr (docContent doc)))) := by
  constructor
  · simp only [tool_analyze_document, fetch_paperless_document, hd,
      fetch_paperless_tags, ht]
    rw [if_neg (by simp)]
    rfl
  · intro t htm
    exact mem_suggestedTagIdsOf all_tags (docTitle doc) (docContent doc) t
      hnames hids htm

/-- Counterexample to C1 as stated: with the two known tags `Invoice` (id 1)
and `invoice` (id 2) and document title `invoice`, the case-folded name of
tag 1 occurs in the case-folded title, yet the tool's returned suggested-tag
ids are exactly `[2]` - tag 1 is not suggested, because the dict
comprehension keyed on lowercased names keeps only the last of the two tags. -/
theorem claim_C1_counterexample :
    dictGet? (jFields (tool_analyze_document cfg0 httpDup 4 false).1) keySuggestedTagIds
      = some (JsonVal.arr [JsonVal.num 2])
    ∧ List.IsInfix (lowerStr (tagName (tagObj 1 ("Invoice")))) (lowerStr (docTitle exDocDup))
    ∧ (1 : Int) ∉ suggestedTagIdsOf dupTags (docTitle exDocDup) (docContent exDocDup)
    ∧ tagObj 1 ("Invoice") ∈ dupTags :=
  ⟨rfl, by decide, by decide, List.mem_cons_self _ _⟩

/-- Witness for C1 at the spec's example: document text `Invoice from Acme
Corp` against the tags `invoice` (1), `acme` (2), `receipt` (3) - the
suggested ids are exactly `[1, 2]`, and for the tag `invoice` the suggestion
iff holds. -/
theorem claim_C1_witness :
    tool_analyze_document cfg0 httpAcme 7 false
      = (analyzeSuccessObj 7 (docTitle exDocAcme) exTags3
          (suggestedTagIdsOf exTags3 (docTitle exDocAcme) (docContent exDocAcme)) false,
         [Effect.get (documentRequest cfg0 7), Effect.get (tagsRequest cfg0)])
    ∧ (tagId (tagObj 1 ("invoice"))
          ∈ suggestedTagIdsOf exTags3 (docTitle exDocAcme) (docContent exDocAcme)
        ↔ (List.IsInfix (lowerStr (tagName (tagObj 1 ("invoice"))))
            (lowerStr (docTitle exDocAcme))
          ∨ List.IsInfix (lowerStr (tagName (tagObj 1 ("invoice"))))
            (lowerStr (docContent exDocAcme))))
    ∧ suggestedTagIdsOf exTags3 (cs ("Invoice from Acme Corp")) (cs ("")) = [1, 2] := by
  have hmain := claim_C1 cfg0 httpAcme 7 exDocAcme exTags3 rfl rfl (by decide) (by decide)
  exact ⟨hmain.1, hmain.2 (tagObj 1 ("invoice")) (List.mem_cons_self _ _), by decide⟩
